import Mathlib

/-!
# Verification of the pipes2 example server's query engine

Shallow embedding of the query engine in `src/routes.js` (the concatenation of
the route layer and the `mock-db` module).  Records are JavaScript-style
objects modelled as association lists from field names to primitive values;
the lodash combinators used by the source (`filter` with an object shorthand,
`sortBy`, `drop`, `take`, `defaultTo`) are embedded with their documented
semantics, including JavaScript's implicit numeric coercions where the source
relies on them.  Instants are integers (seconds); `DateTime.plus({seconds})`
becomes integer addition, and `startOf("week")` becomes flooring to a fixed
week length, which is all the source's logic observes of luxon.
-/

namespace Pipes2

/-- A JavaScript primitive value as it occurs in the catalog records and in
query parameters: a (integral) number, the number `NaN`, a string, or a
boolean.  An absent field / `undefined` is `Option.none` at use sites. -/
inductive Value where
  | num (n : Int)
  | nan
  | str (s : String)
  | bool (b : Bool)
deriving DecidableEq, Repr

/-- A record (JS object) is an association list of fields, in insertion
order, as JavaScript objects enumerate their string keys. -/
abbrev Record := List (String × Value)

/-- Field read: `r[k]`, `none` when the field is absent (`undefined`). -/
def getF (r : Record) (k : String) : Option Value :=
  match r with
  | [] => none
  | (k', v) :: t => if k' = k then some v else getF t k

/-- Field write `r[k] = v`: overwrite in place when present (JS keeps the key
order), append otherwise. -/
def setF (r : Record) (k : String) (v : Value) : Record :=
  if (getF r k).isSome then
    r.map (fun kv => if kv.1 = k then (k, v) else kv)
  else
    r ++ [(k, v)]

/-- JavaScript truthiness of a primitive value. -/
def truthy : Value → Bool
  | .num n => n ≠ 0
  | .nan => false
  | .str s => s ≠ ""
  | .bool b => b

/-- Truthiness of a possibly absent value (`undefined` is falsy). -/
def truthyO : Option Value → Bool
  | none => false
  | some v => truthy v

/-- Decimal digit-string value, `none` when empty or not all digits. -/
def decDigits (cs : List Char) : Option Nat :=
  match cs with
  | [] => none
  | _ =>
    cs.foldl
      (fun acc c =>
        match acc with
        | some a => if c.isDigit then some (a * 10 + (c.toNat - '0'.toNat)) else none
        | none => none)
      (some 0)

/-- `Number(s)` for the strings the engine meets: `""` is `0`, an optionally
minus-signed digit string is its value, anything else is `NaN` (`none`).
(The model does not cover fractional, `+`-signed or whitespace-padded
literals, which the repository's query strings never are.) -/
def jsNumber (s : String) : Option Int :=
  match s.data with
  | [] => some 0
  | '-' :: rest => (decDigits rest).map (fun n => -(n : Int))
  | cs => (decDigits cs).map (fun n => (n : Int))

/-- Numeric coercion of a primitive, `none` meaning `NaN`. -/
def vNum : Value → Option Int
  | .num n => some n
  | .nan => none
  | .str s => jsNumber s
  | .bool b => some (if b then 1 else 0)

/-- JavaScript `a > b`: two strings compare lexicographically, otherwise both
sides are coerced to numbers and any `NaN` makes the comparison false. -/
def jsGT (a b : Value) : Bool :=
  match a, b with
  | .str s, .str t => decide (t < s)
  | _, _ =>
    match vNum a, vNum b with
    | some x, some y => decide (y < x)
    | _, _ => false

/-- JavaScript `a - b` (numeric coercion, `NaN` absorbing). -/
def jsSub (a b : Value) : Value :=
  match vNum a, vNum b with
  | some x, some y => .num (x - y)
  | _, _ => .nan

/-- JavaScript `a * b` (numeric coercion, `NaN` absorbing). -/
def jsMul (a b : Value) : Value :=
  match vNum a, vNum b with
  | some x, some y => .num (x * y)
  | _, _ => .nan

/-- lodash `_.defaultTo(value, default)`: the default replaces only
`undefined`, `null` and `NaN`; every other value (a non-numeric string
included) passes through. -/
def defaultTo (v : Option Value) (d : Int) : Value :=
  match v with
  | none => .num d
  | some .nan => .num d
  | some v => v

/-- lodash `toInteger` as used by `_.drop`/`_.take` on a count, combined with
their clamping of negative counts to `0`: `NaN` and negatives give `0`. -/
def toCount (v : Value) : Nat :=
  ((vNum v).getD 0).toNat

/-- lodash `_.matches` object shorthand, as used by `.filter(filters)`:
a record matches when every predicate field exists on it and is equal
(lodash `isEqual`, which never identifies values of different primitive
types) to the predicate's value. -/
def matchesF (preds : List (String × Value)) (r : Record) : Bool :=
  preds.all (fun kv => decide (getF r kv.1 = some kv.2))

/-- The filter stage: `collection.filter(filters)` with the object
shorthand. -/
def filterStage (rs : List Record) (preds : List (String × Value)) : List Record :=
  rs.filter (matchesF preds)

/-! ## Sort engine: lodash `sortBy` with property-name iteratees -/

/-- lodash `compareAscending` restricted to the primitive values the catalog
holds (no `null`/symbols): identical values tie; `NaN` sorts after
everything, `undefined` after every defined reflexive value; two defined
values compare by JavaScript `>` / `<` (mixed types that coerce to `NaN`
tie).  (On two `NaN`s the source comparator is not even consistent; the
model makes them tie, and no catalog field is `NaN`.) -/
def cmpValue (a b : Option Value) : Ordering :=
  if a = b then .eq
  else
    match a, b with
    | some .nan, _ => .gt
    | _, some .nan => .lt
    | none, _ => .gt
    | _, none => .lt
    | some x, some y =>
      if jsGT x y then .gt else if jsGT y x then .lt else .eq

/-- Multi-key record comparison: `_.sortBy(collection, keys)` compares the
records' values at each key string in order (a key is used verbatim as a
property name — the source never parses a `:desc`/`:decs` suffix off it),
first non-tie wins.  No keys means every pair ties (on object records the
identity iteratee compares equal). -/
def cmpRecords (keys : List String) (r1 r2 : Record) : Ordering :=
  match keys with
  | [] => .eq
  | k :: ks =>
    match cmpValue (getF r1 k) (getF r2 k) with
    | .eq => cmpRecords ks r1 r2
    | o => o

/-- Stable insert: the new element goes after every element not strictly
greater than it, so equal elements keep arrival order. -/
def insertR (cmp : Record → Record → Ordering) (x : Record) : List Record → List Record
  | [] => [x]
  | y :: ys =>
    if cmp y x = .gt then x :: y :: ys else y :: insertR cmp x ys

/-- The sort stage, `collection.sortBy(sorts)`: a stable ascending sort by
`cmpRecords`.  (lodash's `sortBy` is documented stable; any stable sort for
the same comparator computes the same list, so stable insertion sort is an
extensionally faithful embedding.) -/
def sortByKeys (keys : List String) (rs : List Record) : List Record :=
  rs.foldl (fun acc x => insertR (cmpRecords keys) x acc) []

/-! ## Text search stage -/

/-- Whether `pat` occurs as a substring of `s` (helper for the modelled
fuzzy matcher). -/
def strContains (s pat : String) : Bool :=
  decide ((s.splitOn pat).length ≠ 1)

/-- Modelled from the spec: the body of the non-empty branch of the `fuse`
mixin calls the external Fuse.js library (not part of this repository);
§4.2 specifies approximate matching over the fields `id`, `title`,
`summary`.  Modelled as substring containment over those fields, order
preserved.  No claim depends on this branch. -/
def fuseSearch (rs : List Record) (q : String) : List Record :=
  rs.filter (fun r =>
    ["id", "title", "summary"].any (fun k =>
      match getF r k with
      | some (.str s) => strContains s q
      | _ => false))

/-- The search stage, the `fuse` lodash mixin: `if (searchString)` — a
missing or empty query is falsy and returns the items unchanged; otherwise
the fuzzy matcher runs. -/
def fuseStage (q : Option String) (rs : List Record) : List Record :=
  match q with
  | none => rs
  | some s => if s = "" then rs else fuseSearch rs s

/-! ## Pagination -/

/-- The result of `getMediaItems`: the page of items and the next page
number when one was set. -/
structure QueryResult where
  items : List Record
  nextPage : Option Int
deriving DecidableEq, Repr

/-- The pagination tail of `getMediaItems` (everything after the base query
is built), on an already ordered record sequence.  `page`, `perPage`,
`maxPage` arrive as the caller sent them (`none` = absent, strings stay
strings through `_.defaultTo`):

* `currentPage/PerPage/MaxPage` default only `undefined`/`NaN` values;
* `if (currentPage > currentMaxPage) return { items: [] }`;
* `nextPage = Number(currentPage) + 1` when
  `currentMaxPage > currentPage && total > currentPage * currentPerPage`;
* items are `.drop((currentPage - 1) * currentPerPage).take(currentPerPage)`.
-/
def paginateCore (rs : List Record) (page perPage maxPage : Option Value) : QueryResult :=
  let total : Int := rs.length
  let currentPage := defaultTo page 1
  let currentPerPage := defaultTo perPage 20
  let currentMaxPage := defaultTo maxPage 100
  if jsGT currentPage currentMaxPage then ⟨[], none⟩
  else
    let nextPage : Option Int :=
      if jsGT currentMaxPage currentPage && jsGT (.num total) (jsMul currentPage currentPerPage) then
        (vNum currentPage).map (· + 1)
      else none
    ⟨(rs.drop (toCount (jsMul (jsSub currentPage (.num 1)) currentPerPage))).take
        (toCount currentPerPage),
      nextPage⟩

/-- The week length, in the integer time unit of the model (seconds). -/
def weekLen : Int := 7 * 24 * 3600

/-- `DateTime.startOf("week")`: the instant floored to the containing week
boundary. -/
def weekStart (t : Int) : Int :=
  t - t % weekLen

/-- The `startsOn` touch-up `getMediaItems` maps over the base query:
`if (item.startsOn) item.startsOnTimestamp = startOfWeek.plus(item.startsOn)`.
-/
def startsOnMap (startOfWeek : Int) (r : Record) : Record :=
  if truthyO (getF r "startsOn") then
    match getF r "startsOn" with
    | some (.num n) => setF r "startsOnTimestamp" (.num (startOfWeek + n))
    | _ => r
  else r

/-- `getMediaItems` of the mock-db module: build the base query
(`db.get("media").filter(filters).fuse(q).sortBy(sorts)`), then paginate its
`startsOn`-mapped form.  `startOfWeek` is the module-level constant derived
from the module-level `now`. -/
def getMediaItems (startOfWeek : Int) (media : List Record)
    (filters : List (String × Value)) (sorts : List String) (q : Option String)
    (page perPage maxPage : Option Value) : QueryResult :=
  let baseQuery := sortByKeys sorts (fuseStage q (filterStage media filters))
  paginateCore (baseQuery.map (startsOnMap startOfWeek)) page perPage maxPage

/-! ## Route-level filter building (`/media`) -/

/-- `_.camelCase` on the names the routes produce (`key.substring(2)` of a
`byXxx` query key): the leading capital is lowered.  (Full lodash
`camelCase` also splits multi-word inputs, which the single-word keys of
this API never are.) -/
def decap (s : String) : String :=
  match s.data with
  | [] => s
  | c :: cs => String.mk (c.toLower :: cs)

/-- The `/media` route's per-parameter cast: `castedValue` starts as the raw
string, the literal `"true"` becomes boolean `true`, and for
`bySeasonNumber`/`byEpisodeNumber` it is overridden by `Number(value)` of
the original string (so `"true"` there becomes `NaN`). -/
def castMediaValue (key value : String) : Value :=
  let castedValue := if value = "true" then Value.bool true else Value.str value
  if key = "bySeasonNumber" ∨ key = "byEpisodeNumber" then
    match jsNumber value with
    | some n => .num n
    | none => .nan
  else castedValue

/-- `key.startsWith("by")`, computed on the character list. -/
def startsWithBy (s : String) : Bool :=
  match s.data with
  | 'b' :: 'y' :: _ => true
  | _ => false

/-- `key.substring(2)`, computed on the character list. -/
def drop2 (s : String) : String :=
  String.mk (s.data.drop 2)

/-- The `/media` route's `_.reduce` over the query parameters: every key
starting with `"by"` contributes a predicate under its camel-cased stem
(`result[camelCase(key.substring(2))] = castedValue`, a set-or-overwrite on
the accumulating object), with the cast applied to the expected value. -/
def buildFilters (qs : List (String × String)) : List (String × Value) :=
  qs.foldl
    (fun result kv =>
      if startsWithBy kv.1 then
        setF result (decap (drop2 kv.1)) (castMediaValue kv.1 kv.2)
      else result)
    []

/-! ## EPG temporal classifier (`epgUtils`) and `getPrograms` -/

/-- The `epgFilters` object the `/epg` route passes to `getPrograms`: the
three mode flags with their truthiness already taken (the route forwards
raw query strings; `epgUtils` only ever tests them for truthiness), and the
`forDay` raw value. -/
structure EpgFilters where
  now : Bool := false
  upNext : Bool := false
  justEnded : Bool := false
  forDay : Option Value := none
deriving DecidableEq, Repr

/-- The live window test of `epgUtils`:
`program.airTimestamp <= now && now <= program.airTimestamp.plus({seconds: durationInSeconds})`.
A missing `airTimestamp` makes the JavaScript comparison false.  (A missing
duration would make luxon throw; catalog programs always carry one, and the
model treats that case as a non-match.) -/
def liveCond (now : Int) (r : Record) : Bool :=
  match getF r "airTimestamp", getF r "durationInSeconds" with
  | some (.num t), some (.num d) => decide (t ≤ now ∧ now ≤ t + d)
  | _, _ => false

/-- The annotation step of `epgUtils`: `program.isLive = true` exactly when
the live window test passes (the field is only ever set, never cleared). -/
def annotate (now : Int) (r : Record) : Record :=
  if liveCond now r then setF r "isLive" (.bool true) else r

/-- The `upNext` test: `now <= program.airTimestamp`. -/
def upNextCond (now : Int) (r : Record) : Bool :=
  match getF r "airTimestamp" with
  | some (.num t) => decide (now ≤ t)
  | _ => false

/-- The `justEnded` test: `program.airTimestamp <= now && now >=
program.airTimestamp.plus({seconds: durationInSeconds})`. -/
def endedCond (now : Int) (r : Record) : Bool :=
  match getF r "airTimestamp", getF r "durationInSeconds" with
  | some (.num t), some (.num d) => decide (t ≤ now ∧ t + d ≤ now)
  | _, _ => false

/-- Day-of-year of an instant, as the model of luxon's `.ordinal` (the
source compares ordinals of `airTimestamp` and of the `forDay` millis; the
model floors to days — no claim exercises this branch). -/
def dayOrdinal (t : Int) : Int :=
  t / 86400

/-- The `forDay` test: `program.airTimestamp.ordinal ==
DateTime.fromMillis(Number(epgFilters.forDay)).ordinal`. -/
def forDayCond (forDay : Value) (r : Record) : Bool :=
  match getF r "airTimestamp", vNum forDay with
  | some (.num t), some day => decide (dayOrdinal t = dayOrdinal day)
  | _, _ => false

/-- `epgUtils(programs, epgFilters)`: annotate every program with `isLive`,
then apply the first truthy mode in source order — `now` (keep live
programs), `upNext`, `justEnded` (note the `.reverse()`), `forDay` — or
return all annotated programs when no mode is set. -/
def epgUtils (now : Int) (programs : List Record) (epgFilters : EpgFilters) : List Record :=
  let modifiedPrograms := programs.map (annotate now)
  if epgFilters.now then
    modifiedPrograms.filter (fun program => truthyO (getF program "isLive"))
  else if epgFilters.upNext then
    modifiedPrograms.filter (upNextCond now)
  else if epgFilters.justEnded then
    (modifiedPrograms.filter (endedCond now)).reverse
  else
    match epgFilters.forDay with
    | some fd =>
      if truthy fd then modifiedPrograms.filter (forDayCond fd)
      else modifiedPrograms
    | none => modifiedPrograms

/-- `calculateLimit`:
`limit && Number(limit) < maxResults ? Number(limit) : maxResults` with
`maxResults = 100`. -/
def calculateLimit (limit : Option Value) : Int :=
  match limit with
  | some v =>
    if truthy v then
      match vNum v with
      | some n => if n < 100 then n else 100
      | none => 100
    else 100
  | none => 100

/-- The per-program map inside `getPrograms`:
`program.airTimestamp = startOfWeek.plus(program.airTime)` (programs store a
weekly offset; a program without one is left unchanged, where luxon would
throw — catalog programs always carry `airTime`). -/
def setAirTs (startOfWeek : Int) (r : Record) : Record :=
  match getF r "airTime" with
  | some (.num a) => setF r "airTimestamp" (.num (startOfWeek + a))
  | _ => r

/-- The result of `getPrograms`, together with the catalog `programs`
collection as it stands after the call: the lodash `map` callbacks mutate
the shared record objects in place, so every record that passed the field
filter keeps its derived `airTimestamp` and any `isLive` mark. -/
structure ProgramsResult where
  items : List Record
  store : List Record
deriving DecidableEq, Repr

/-- `getPrograms` of the mock-db module, with the catalog collection and the
module-load instant made explicit: `db.get("programs").filter(filters)
.map(airTimestamp := startOfWeek + airTime).epgUtils(epgFilters)
.take(calculateLimit(limit))`.  `loadNow` is the module-level
`now = DateTime.local()` captured when the module loads; `startOfWeek` is
derived from it.  The returned `store` reflects the in-place mutation of the
filtered records by the two `map` callbacks. -/
def getPrograms (loadNow : Int) (programs : List Record)
    (filters : List (String × Value)) (epgFilters : EpgFilters)
    (limit : Option Value) : ProgramsResult :=
  let startOfWeek := weekStart loadNow
  let placed := (filterStage programs filters).map (setAirTs startOfWeek)
  { items := (epgUtils loadNow placed epgFilters).take (calculateLimit limit).toNat
    store := programs.map (fun r =>
      if matchesF filters r then annotate loadNow (setAirTs startOfWeek r) else r) }

/-- A `getPrograms` query evaluation observed at wall-clock instant
`callNow` in a process whose mock-db module loaded at instant `loadNow`: the
module-level `now` (source line 690) is the load instant, so the call
instant is not consulted at all. -/
def getProgramsAt (loadNow : Int) (_callNow : Int) (programs : List Record)
    (filters : List (String × Value)) (epgFilters : EpgFilters)
    (limit : Option Value) : ProgramsResult :=
  getPrograms loadNow programs filters epgFilters limit

/-! ## Basic lemmas about the embedding -/

theorem getF_map_replace_self (r : Record) (k : String) (v : Value)
    (h : (getF r k).isSome) :
    getF (r.map (fun kv => if kv.1 = k then (k, v) else kv)) k = some v := by
  induction r with
  | nil => simp [getF] at h
  | cons kv t ih =>
    obtain ⟨k', v'⟩ := kv
    simp only [List.map_cons]
    by_cases hk : k' = k
    · subst hk
      rw [show (if ((k', v') : String × Value).1 = k' then (k', v) else (k', v'))
            = (k', v) from if_pos rfl]
      simp [getF]
    · rw [show (if ((k', v') : String × Value).1 = k then (k, v) else (k', v'))
            = (k', v') from if_neg hk]
      simp only [getF, if_neg hk] at h ⊢
      exact ih h

theorem getF_append_single_self (r : Record) (k : String) (v : Value)
    (h : getF r k = none) :
    getF (r ++ [(k, v)]) k = some v := by
  induction r with
  | nil => simp [getF]
  | cons kv t ih =>
    obtain ⟨k', v'⟩ := kv
    by_cases hk : k' = k
    · simp [getF, hk] at h
    · simp only [getF, if_neg hk] at h
      simpa [getF, hk] using ih h

theorem getF_setF_self (r : Record) (k : String) (v : Value) :
    getF (setF r k v) k = some v := by
  unfold setF
  split
  · exact getF_map_replace_self r k v (by assumption)
  · refine getF_append_single_self r k v ?_
    rename_i h
    exact Option.not_isSome_iff_eq_none.mp h

theorem getF_map_replace_ne (r : Record) (k k' : String) (v : Value)
    (h : k' ≠ k) :
    getF (r.map (fun kv => if kv.1 = k then (k, v) else kv)) k' = getF r k' := by
  induction r with
  | nil => rfl
  | cons kv t ih =>
    obtain ⟨a, b⟩ := kv
    simp only [List.map_cons]
    by_cases ha : a = k
    · subst ha
      rw [show (if ((a, b) : String × Value).1 = a then (a, v) else (a, b))
            = (a, v) from if_pos rfl]
      simp only [getF, if_neg (Ne.symm h), ih]
    · rw [show (if ((a, b) : String × Value).1 = k then (k, v) else (a, b))
            = (a, b) from if_neg ha]
      simp only [getF, ih]

theorem getF_append_single_ne (r : Record) (k k' : String) (v : Value)
    (h : k' ≠ k) :
    getF (r ++ [(k, v)]) k' = getF r k' := by
  induction r with
  | nil => simp [getF, Ne.symm h]
  | cons kv t ih =>
    obtain ⟨a, b⟩ := kv
    by_cases ha : a = k'
    · simp [getF, ha]
    · simp [getF, ha, ih]

theorem getF_setF_ne (r : Record) (k k' : String) (v : Value) (h : k' ≠ k) :
    getF (setF r k v) k' = getF r k' := by
  unfold setF
  split
  · exact getF_map_replace_ne r k k' v h
  · exact getF_append_single_ne r k k' v h

/-- A record passes the filter stage iff it is in the input and every
predicate field exists on it with the predicate's value. -/
theorem mem_filterStage (rs : List Record) (preds : List (String × Value)) (r : Record) :
    r ∈ filterStage rs preds ↔ r ∈ rs ∧ ∀ kv ∈ preds, getF r kv.1 = some kv.2 := by
  simp [filterStage, List.mem_filter, matchesF, List.all_eq_true]

/-- With no sort keys every pair of records ties, so the stable sort is the
identity (as lodash `sortBy` with the identity iteratee is on object
records, whose comparison always returns `0`). -/
theorem insertR_of_no_gt (cmp : Record → Record → Ordering) (x : Record)
    (l : List Record) (h : ∀ y, cmp y x ≠ .gt) :
    insertR cmp x l = l ++ [x] := by
  induction l with
  | nil => rfl
  | cons y ys ih => simp [insertR, h y, ih]

theorem sortByKeys_nil (rs : List Record) : sortByKeys [] rs = rs := by
  have step : ∀ (l : List Record) (x : Record),
      insertR (cmpRecords []) x l = l ++ [x] := by
    intro l x
    exact insertR_of_no_gt _ x l (fun y => by simp [cmpRecords])
  suffices h : ∀ (rs acc : List Record),
      rs.foldl (fun acc x => insertR (cmpRecords []) x acc) acc = acc ++ rs by
    simpa using h rs []
  intro rs
  induction rs with
  | nil => simp
  | cons x t ih =>
    intro acc
    rw [List.foldl_cons, step, ih]
    simp

/-- The empty-query search stage is the identity. -/
theorem fuseStage_none (rs : List Record) : fuseStage none rs = rs := rfl

theorem fuseStage_empty (rs : List Record) : fuseStage (some "") rs = rs := by
  simp [fuseStage]

/-- `annotate` touches only the `isLive` field. -/
theorem getF_annotate_ne (now : Int) (r : Record) (k : String)
    (h : k ≠ "isLive") :
    getF (annotate now r) k = getF r k := by
  unfold annotate
  split
  · exact getF_setF_ne r "isLive" k _ h
  · rfl

theorem endedCond_annotate (now now' : Int) (r : Record) :
    endedCond now' (annotate now r) = endedCond now' r := by
  unfold endedCond
  rw [getF_annotate_ne now r "airTimestamp" (by decide),
    getF_annotate_ne now r "durationInSeconds" (by decide)]

/-- On a record without a pre-existing `isLive` field, the annotation leaves
`isLive` truthy exactly when the live window test passes. -/
theorem isLive_annotate (now : Int) (r : Record) (h : getF r "isLive" = none) :
    truthyO (getF (annotate now r) "isLive") = liveCond now r := by
  unfold annotate
  by_cases hc : liveCond now r
  · simp [hc, getF_setF_self, truthyO, truthy]
  · simp [hc, h, truthyO]

theorem filter_map_annotate_live (now : Int) (ps : List Record)
    (h : ∀ p ∈ ps, getF p "isLive" = none) :
    (ps.map (annotate now)).filter (fun p => truthyO (getF p "isLive"))
      = (ps.filter (liveCond now)).map (annotate now) := by
  induction ps with
  | nil => rfl
  | cons p t ih =>
    have hp := h p (List.mem_cons_self p t)
    have ht := ih (fun q hq => h q (List.mem_cons_of_mem p hq))
    by_cases hc : liveCond now p
    · simp [List.filter_cons, isLive_annotate now p hp, hc, ht]
    · simp [List.filter_cons, isLive_annotate now p hp, hc, ht]

theorem filter_map_annotate_ended (now : Int) (ps : List Record) :
    (ps.map (annotate now)).filter (endedCond now)
      = (ps.filter (endedCond now)).map (annotate now) := by
  induction ps with
  | nil => rfl
  | cons p t ih =>
    by_cases hc : endedCond now p
    · simp [List.filter_cons, endedCond_annotate, hc, ih]
    · simp [List.filter_cons, endedCond_annotate, hc, ih]

theorem paginateCore_items_le (rs : List Record) (page maxPage : Option Value) (pp : Int) :
    (paginateCore rs page (some (.num pp)) maxPage).items.length ≤ pp.toNat := by
  have e : defaultTo (some (Value.num pp)) 20 = Value.num pp := rfl
  by_cases hc : jsGT (defaultTo page 1) (defaultTo maxPage 100) = true
  · simp [paginateCore, e, hc]
  · simp [paginateCore, e, hc, toCount, vNum, List.length_take]

theorem calculateLimit_le (limit : Option Value) : calculateLimit limit ≤ 100 := by
  unfold calculateLimit
  cases limit with
  | none => exact le_refl 100
  | some v =>
    split
    · split
      · split <;> omega
      · exact le_refl 100
    · exact le_refl 100

/-! ## The claims -/

/-- Claim C1: on an ordered record sequence of length `N`, with numeric or
absent caller parameters defaulted to `page = 1`, `perPage = 20`,
`maxPage = 100`, the pagination of `getMediaItems` returns an empty result
with no `nextPage` when `page > maxPage`; otherwise the items are the slice
from `(page-1)*perPage` (inclusive) to `page*perPage` (exclusive) and
`nextPage` is present iff `page < maxPage` and `N > page*perPage`. -/
theorem spec_C1_paginate (rs : List Record) (page perPage maxPage : Option Int)
    (hp : 1 ≤ page.getD 1) (hpp : 1 ≤ perPage.getD 20) :
    (maxPage.getD 100 < page.getD 1 →
      paginateCore rs (page.map .num) (perPage.map .num) (maxPage.map .num) = ⟨[], none⟩)
    ∧ (page.getD 1 ≤ maxPage.getD 100 →
      (paginateCore rs (page.map .num) (perPage.map .num) (maxPage.map .num)).items
        = (rs.drop ((page.getD 1 - 1) * perPage.getD 20).toNat).take (perPage.getD 20).toNat
      ∧ ((paginateCore rs (page.map .num) (perPage.map .num) (maxPage.map .num)).nextPage.isSome
          ↔ page.getD 1 < maxPage.getD 100 ∧ page.getD 1 * perPage.getD 20 < (rs.length : Int))) := by
  have e1 : defaultTo (page.map Value.num) 1 = .num (page.getD 1) := by cases page <;> rfl
  have e2 : defaultTo (perPage.map Value.num) 20 = .num (perPage.getD 20) := by
    cases perPage <;> rfl
  have e3 : defaultTo (maxPage.map Value.num) 100 = .num (maxPage.getD 100) := by
    cases maxPage <;> rfl
  constructor
  · intro h
    have hgt : jsGT (Value.num (page.getD 1)) (Value.num (maxPage.getD 100)) = true := by
      simp [jsGT, vNum]
      exact h
    simp [paginateCore, e1, e2, e3, hgt]
  · intro h
    have hgt : jsGT (Value.num (page.getD 1)) (Value.num (maxPage.getD 100)) = false := by
      simp [jsGT, vNum]
      exact h
    refine ⟨?_, ?_⟩
    · simp [paginateCore, e1, e2, e3, hgt, jsSub, jsMul, vNum, toCount]
    · simp only [paginateCore, e1, e2, e3, hgt, jsSub, jsMul, vNum, toCount]
      by_cases h1 : page.getD 1 < maxPage.getD 100 <;>
        by_cases h2 : page.getD 1 * perPage.getD 20 < (rs.length : Int) <;>
          simp [jsGT, jsMul, vNum, h1, h2]

/-- Witness for C1, the spec's own pagination boundary example: 25 records,
`perPage = 10`, `page = 3`, default `maxPage` give the third slice of ten
(five records remain) and no next page. -/
theorem spec_C1_paginate_witness :
    (paginateCore (List.replicate 25 ([] : Record)) ((some 3 : Option Int).map .num)
        ((some 10 : Option Int).map .num) ((none : Option Int).map .num)).items
      = ((List.replicate 25 ([] : Record)).drop
          (((some 3 : Option Int).getD 1 - 1) * (some 10 : Option Int).getD 20).toNat).take
          ((some 10 : Option Int).getD 20).toNat
    ∧ ¬ ((paginateCore (List.replicate 25 ([] : Record)) ((some 3 : Option Int).map .num)
        ((some 10 : Option Int).map .num) ((none : Option Int).map .num)).nextPage.isSome
          = true) := by
  have h := (spec_C1_paginate (List.replicate 25 ([] : Record)) (some 3) (some 10) none
      (by decide) (by decide)).2 (by decide)
  exact ⟨h.1, fun hh => absurd (h.2.mp hh) (by decide)⟩

/-- Claim C2 (code bug): the reference instant is the module-level
`now = DateTime.local()` captured at load time, not per query evaluation.
A process loaded at instant `0` evaluating `getPrograms` (mode `now`) at
wall-clock instant `1000` returns no programs for a program airing over
`[900, 1100]`, while classification against the evaluation instant — what
per-evaluation capture would compute — returns the program, live. -/
theorem spec_C2_now_cached_at_load :
    (getProgramsAt 0 1000 [[("airTime", .num 900), ("durationInSeconds", .num 200)]]
        [] { now := true, upNext := false, justEnded := false, forDay := none } none).items
      = []
    ∧ (getProgramsAt 1000 1000 [[("airTime", .num 900), ("durationInSeconds", .num 200)]]
        [] { now := true, upNext := false, justEnded := false, forDay := none } none).items
      = [[("airTime", .num 900), ("durationInSeconds", .num 200),
          ("airTimestamp", .num 900), ("isLive", .bool true)]] := by
  constructor
  · decide
  · decide

/-- Claim C3: the filter stage includes a record iff every predicate field
built from the `by*` query parameters exists on the record with the expected
value, where the expected value alone is coerced: season/episode-number
predicates to a number (`NaN` when non-numeric), and the literal `"true"`
to boolean `true` for every other predicate. -/
theorem spec_C3_filter_iff (media : List Record) (qs : List (String × String)) (r : Record) :
    (r ∈ filterStage media (buildFilters qs)
      ↔ r ∈ media ∧ ∀ kv ∈ buildFilters qs, getF r kv.1 = some kv.2)
    ∧ (∀ v n, jsNumber v = some n →
        castMediaValue "bySeasonNumber" v = .num n ∧ castMediaValue "byEpisodeNumber" v = .num n)
    ∧ (∀ v, jsNumber v = none →
        castMediaValue "bySeasonNumber" v = .nan ∧ castMediaValue "byEpisodeNumber" v = .nan)
    ∧ (∀ k, k ≠ "bySeasonNumber" → k ≠ "byEpisodeNumber" →
        castMediaValue k "true" = .bool true) := by
  refine ⟨mem_filterStage media (buildFilters qs) r, ?_, ?_, ?_⟩
  · intro v n h
    constructor <;> simp [castMediaValue, h]
  · intro v h
    constructor <;> simp [castMediaValue, h]
  · intro k h1 h2
    simp [castMediaValue, h1, h2]

/-- Witness for C3: a record matching a genre predicate and a numeric
season-number predicate passes the filter stage. -/
theorem spec_C3_filter_iff_witness :
    [("genre", Value.str "genre-1"), ("seasonNumber", Value.num 3)]
      ∈ filterStage [[("genre", Value.str "genre-1"), ("seasonNumber", Value.num 3)]]
          (buildFilters [("byGenre", "genre-1"), ("bySeasonNumber", "3")]) :=
  (spec_C3_filter_iff
      [[("genre", Value.str "genre-1"), ("seasonNumber", Value.num 3)]]
      [("byGenre", "genre-1"), ("bySeasonNumber", "3")]
      [("genre", Value.str "genre-1"), ("seasonNumber", Value.num 3)]).1.mpr (by decide)

/-- Claim C4: on fresh programs (no pre-existing `isLive` field), the
annotation leaves `isLive` truthy exactly when
`airTimestamp ≤ now ≤ airTimestamp + durationInSeconds`, and EPG mode `now`
returns exactly the live programs in input order (each carrying its
annotation). -/
theorem spec_C4_isLive_now_mode (now : Int) (ps : List Record)
    (hfresh : ∀ p ∈ ps, getF p "isLive" = none) :
    (∀ p ∈ ps, ∀ t d : Int,
        getF p "airTimestamp" = some (.num t) →
        getF p "durationInSeconds" = some (.num d) →
        (truthyO (getF (annotate now p) "isLive") = true ↔ t ≤ now ∧ now ≤ t + d))
    ∧ epgUtils now ps { now := true, upNext := false, justEnded := false, forDay := none }
        = (ps.filter (liveCond now)).map (annotate now) := by
  constructor
  · intro p hp t d ht hd
    rw [isLive_annotate now p (hfresh p hp)]
    simp [liveCond, ht, hd]
  · show (ps.map (annotate now)).filter (fun p => truthyO (getF p "isLive")) = _
    exact filter_map_annotate_live now ps hfresh

/-- Witness for C4, the spec's own example: a program started 60 seconds ago
with a 120-second duration is live and is returned by mode `now`. -/
theorem spec_C4_isLive_now_mode_witness :
    truthyO (getF (annotate 100 [("airTimestamp", Value.num 40),
        ("durationInSeconds", Value.num 120)]) "isLive") = true
    ∧ epgUtils 100 [[("airTimestamp", Value.num 40), ("durationInSeconds", Value.num 120)]]
        { now := true, upNext := false, justEnded := false, forDay := none }
      = ([[("airTimestamp", Value.num 40), ("durationInSeconds", Value.num 120)]].filter
            (liveCond 100)).map (annotate 100) := by
  have h := spec_C4_isLive_now_mode 100
    [[("airTimestamp", Value.num 40), ("durationInSeconds", Value.num 120)]] (by decide)
  exact ⟨(h.1 _ (by decide) 40 120 (by decide) (by decide)).mpr (by decide), h.2⟩

/-- Claim C5 (code bug): the descending direction marker is not handled.
`sortBy` receives the raw comma-split strings as property names, so
`"episodeNumber:desc"` reads a nonexistent field on every record — all
comparisons tie and the stable sort returns the input order — instead of
sorting descending (the route's own API documentation advertises the suffix
as reversing the order).  The un-suffixed key does sort ascending. -/
theorem spec_C5_desc_marker_ignored :
    sortByKeys ["episodeNumber:desc"]
        [[("episodeNumber", .num 1)], [("episodeNumber", .num 2)]]
      = [[("episodeNumber", .num 1)], [("episodeNumber", .num 2)]]
    ∧ sortByKeys ["episodeNumber:decs"]
        [[("episodeNumber", .num 1)], [("episodeNumber", .num 2)]]
      = [[("episodeNumber", .num 1)], [("episodeNumber", .num 2)]]
    ∧ sortByKeys ["episodeNumber"]
        [[("episodeNumber", .num 2)], [("episodeNumber", .num 1)]]
      = [[("episodeNumber", .num 1)], [("episodeNumber", .num 2)]] := by
  refine ⟨by decide, by decide, by decide⟩

/-- Claim C6 (corrected): `getMediaItems` applies no 100-record clamp: with
101 records and `perPage = 101` it returns all 101 items. -/
theorem spec_C6_no_clamp_counterexample :
    ¬ ((getMediaItems 0 (List.replicate 101 ([] : Record)) [] [] none none
        (some (.num 101)) none).items.length ≤ 100) := by
  decide

/-- Claim C6 as amended: the fixed 100 cap (`maxResults`, applied through
`calculateLimit`) bounds only the EPG `getPrograms` result; `getMediaItems`
does not clamp `perPage` — its item count is bounded by the effective
`perPage` alone. -/
theorem spec_C6_amended :
    (∀ (loadNow : Int) (programs : List Record) (filters : List (String × Value))
        (epgFilters : EpgFilters) (limit : Option Value),
      (getPrograms loadNow programs filters epgFilters limit).items.length ≤ 100)
    ∧ (∀ (startOfWeek : Int) (media : List Record) (filters : List (String × Value))
        (sorts : List String) (q : Option String) (page maxPage : Option Value) (pp : Int),
      (getMediaItems startOfWeek media filters sorts q page (some (.num pp)) maxPage).items.length
        ≤ pp.toNat) := by
  constructor
  · intro loadNow programs filters epgFilters limit
    have h1 : (calculateLimit limit).toNat ≤ 100 := by
      have := calculateLimit_le limit
      omega
    calc (getPrograms loadNow programs filters epgFilters limit).items.length
        ≤ (calculateLimit limit).toNat := by
          simp [getPrograms, List.length_take]
      _ ≤ 100 := h1
  · intro startOfWeek media filters sorts q page maxPage pp
    exact paginateCore_items_le _ page maxPage pp

/-- Claim C7: EPG mode `justEnded` returns exactly the programs with
`airTimestamp ≤ now` and `airTimestamp + durationInSeconds ≤ now`, in
reverse input order; in particular three qualifying programs come back
last-first. -/
theorem spec_C7_justEnded (now : Int) (ps : List Record) :
    epgUtils now ps { now := false, upNext := false, justEnded := true, forDay := none }
      = ((ps.filter (endedCond now)).map (annotate now)).reverse
    ∧ ∀ p1 p2 p3 : Record,
        endedCond now p1 = true → endedCond now p2 = true → endedCond now p3 = true →
        epgUtils now [p1, p2, p3]
            { now := false, upNext := false, justEnded := true, forDay := none }
          = [annotate now p3, annotate now p2, annotate now p1] := by
  have main : ∀ qs : List Record,
      epgUtils now qs { now := false, upNext := false, justEnded := true, forDay := none }
        = ((qs.filter (endedCond now)).map (annotate now)).reverse := by
    intro qs
    show ((qs.map (annotate now)).filter (endedCond now)).reverse = _
    rw [filter_map_annotate_ended]
  refine ⟨main ps, ?_⟩
  intro p1 p2 p3 h1 h2 h3
  rw [main [p1, p2, p3]]
  simp [List.filter_cons, h1, h2, h3]

/-- Witness for C7: three programs ending at 100 < 200 < 300, all before
`now = 1000`, come back in the order 300, 200, 100. -/
theorem spec_C7_justEnded_witness :
    epgUtils 1000
        [[("airTimestamp", Value.num 0), ("durationInSeconds", Value.num 100)],
         [("airTimestamp", Value.num 0), ("durationInSeconds", Value.num 200)],
         [("airTimestamp", Value.num 0), ("durationInSeconds", Value.num 300)]]
        { now := false, upNext := false, justEnded := true, forDay := none }
      = [annotate 1000 [("airTimestamp", Value.num 0), ("durationInSeconds", Value.num 300)],
         annotate 1000 [("airTimestamp", Value.num 0), ("durationInSeconds", Value.num 200)],
         annotate 1000 [("airTimestamp", Value.num 0), ("durationInSeconds", Value.num 100)]] :=
  (spec_C7_justEnded 1000
      [[("airTimestamp", Value.num 0), ("durationInSeconds", Value.num 100)],
       [("airTimestamp", Value.num 0), ("durationInSeconds", Value.num 200)],
       [("airTimestamp", Value.num 0), ("durationInSeconds", Value.num 300)]]).2
    _ _ _ (by decide) (by decide) (by decide)

/-- Claim C8 (corrected): a non-numeric `perPage` is not treated as absent —
`_.defaultTo` passes the string through, `take` of its `NaN` coercion keeps
zero items, so the result differs from the call with the parameter
omitted. -/
theorem spec_C8_non_numeric_counterexample :
    (getMediaItems 0 [[("id", .str "e1")]] [] [] none none (some (.str "abc")) none).items
      = []
    ∧ (getMediaItems 0 [[("id", .str "e1")]] [] [] none none none none).items
      = [[("id", .str "e1")]]
    ∧ getMediaItems 0 [[("id", .str "e1")]] [] [] none none (some (.str "abc")) none
      ≠ getMediaItems 0 [[("id", .str "e1")]] [] [] none none none none := by
  refine ⟨by decide, by decide, by decide⟩

/-- Claim C8 as amended: the engine never raises on non-numeric `page` or
`perPage` (the embedding is total), but the value is not replaced by the
default: a non-numeric `page` yields the first `perPage` items with no
`nextPage` ever, and a non-numeric `perPage` yields no items and no
`nextPage`. -/
theorem spec_C8_amended (startOfWeek : Int) (media : List Record)
    (filters : List (String × Value)) (sorts : List String) (q : Option String)
    (s : String) (h : jsNumber s = none) :
    getMediaItems startOfWeek media filters sorts q (some (.str s)) none none
      = ⟨((sortByKeys sorts (fuseStage q (filterStage media filters))).map
            (startsOnMap startOfWeek)).take 20, none⟩
    ∧ getMediaItems startOfWeek media filters sorts q none (some (.str s)) none
      = ⟨[], none⟩ := by
  have e1 : defaultTo (some (Value.str s)) 1 = Value.str s := rfl
  have e2 : defaultTo (some (Value.str s)) 20 = Value.str s := rfl
  have e3 : defaultTo (none : Option Value) 100 = Value.num 100 := rfl
  have e4 : defaultTo (none : Option Value) 20 = Value.num 20 := rfl
  have e5 : defaultTo (none : Option Value) 1 = Value.num 1 := rfl
  constructor
  · simp [getMediaItems, paginateCore, e1, e3, e4, jsGT, vNum, jsSub, jsMul, toCount, h]
  · simp [getMediaItems, paginateCore, e2, e3, e5, jsGT, vNum, jsSub, jsMul, toCount, h]

/-- Witness for C8 as amended, at the string `"abc"` on a one-record
catalog. -/
theorem spec_C8_amended_witness :
    getMediaItems 0 [[("id", Value.str "e1")]] [] [] none (some (.str "abc")) none none
      = ⟨((sortByKeys [] (fuseStage none (filterStage [[("id", Value.str "e1")]] []))).map
            (startsOnMap 0)).take 20, none⟩
    ∧ getMediaItems 0 [[("id", Value.str "e1")]] [] [] none none (some (.str "abc")) none
      = ⟨[], none⟩ :=
  spec_C8_amended 0 [[("id", Value.str "e1")]] [] [] none "abc" (by decide)

/-- Claim C9 (code bug): `getPrograms` mutates the stored program records in
place — after one mode-`now` query the stored record has gained a persisted
`airTimestamp` and `isLive = true`. -/
theorem spec_C9_store_mutated :
    (getPrograms 1000 [[("airTime", .num 900), ("durationInSeconds", .num 200)]]
        [] { now := true, upNext := false, justEnded := false, forDay := none } none).store
      = [[("airTime", .num 900), ("durationInSeconds", .num 200),
          ("airTimestamp", .num 900), ("isLive", .bool true)]]
    ∧ (getPrograms 1000 [[("airTime", .num 900), ("durationInSeconds", .num 200)]]
        [] { now := true, upNext := false, justEnded := false, forDay := none } none).store
      ≠ [[("airTime", .num 900), ("durationInSeconds", .num 200)]] := by
  refine ⟨by decide, by decide⟩

/-- Claim C10: filtering, then searching with the empty query, then sorting
with no keys, then paginating with `page = 1` and `perPage` the filtered
length, returns exactly the filtered set in its original order (and no next
page). -/
theorem spec_C10_round_trip (media : List Record) (preds : List (String × Value)) :
    paginateCore (sortByKeys [] (fuseStage (some "") (filterStage media preds)))
        (some (.num 1)) (some (.num (filterStage media preds).length)) none
      = ⟨filterStage media preds, none⟩ := by
  rw [fuseStage_empty, sortByKeys_nil]
  simp [paginateCore, defaultTo, jsGT, vNum, jsSub, jsMul, toCount]

end Pipes2
